import Mathlib

/-!
Verification of the intermittent-bleed pneumatic-controller emissions
simulator (`PC_Emissions_Sim.simulate_emissions_optimized`) and of the
Monte Carlo driver loop of `pneumatics.py`.

Machine floats are modelled as rationals; the implicit numpy random
stream is modelled as an explicit `RandStream` supplying, per unit, the
pool-choice indices, the initial-state uniform draw, and, per timestep
and unit, the transition uniform draw.  `np.random.choice(pool, size)`
is modelled as indexing the pool with the supplied index reduced modulo
the pool length (the pool is non-empty whenever this is reached);
`np.random.choice([0,1], p=[S0,S1])` is modelled by inverse-CDF: state 0
iff the uniform draw is `< S0`.  `np.random.choice` on an empty pool
raises, which the spec names `EmptyRatePool`; the explicit `ValueError`s
on `S0`/`DTF` are `InvalidParameter`.
-/

namespace PCSim

/-- Error taxonomy of a single simulation call: the explicit
`ValueError`s raised for bad `S0`/`DTF`, and the failure raised by
`np.random.choice` on an empty rate pool. -/
inductive SimError where
  | InvalidParameter : SimError
  | EmptyRatePool : SimError
deriving DecidableEq

/-- Explicit model of the numpy random stream consumed by one call of
`simulate_emissions_optimized`: per-unit indices into the two rate
pools, a per-unit uniform draw for the initial state, and a per-step,
per-unit uniform draw for the transition. -/
structure RandStream where
  propIdx : ℕ → ℕ
  malfIdx : ℕ → ℕ
  initDraw : ℕ → ℚ
  stepDraw : ℕ → ℕ → ℚ

/-- `np.clip(x, lo, hi)`: `min(hi, max(x, lo))`. -/
def npClip (x lo hi : ℚ) : ℚ := min (max x lo) hi

/-- One draw of `np.random.choice(pool)`, given the raw index supplied
by the stream, reduced modulo the pool length. -/
def poolChoice (pool : List ℚ) (idx : ℕ) : ℚ :=
  pool.getD (idx % pool.length) 0

/-- Initial state of one unit: `np.random.choice([0,1], p=[S0,S1])` by
inverse CDF — properly operating (0) iff the uniform draw is `< S0`. -/
def initState (S0 : ℚ) (u : ℚ) : ℕ :=
  if u < S0 then 0 else 1

/-- One unit's transition, source lines 47-50:
`np.where((states == 0) & (rand_vals < p), 1,
  np.where((states == 1) & (rand_vals < r), 0, states))`, elementwise. -/
def nextState (p r : ℚ) (s : ℕ) (u : ℚ) : ℕ :=
  if s = 0 ∧ u < p then 1
  else if s = 1 ∧ u < r then 0
  else s

/-- State of unit `i` at timestep `t` (the state the loop records at
step `t`), with `p`, `r` already clipped; each step consumes the fresh
draw `rs.stepDraw t i`. -/
def stateAt (S0 p r : ℚ) (rs : RandStream) : ℕ → ℕ → ℕ
  | 0, i => initState S0 (rs.initDraw i)
  | t + 1, i => nextState p r (stateAt S0 p r rs t i) (rs.stepDraw t i)

/-- Emission rate of unit `i` at step `t`:
`np.where(states == 0, prop_sample, malf_sample)`, with the per-unit
samples `prop_sample[i]`, `malf_sample[i]` drawn once per trial. -/
def unitEmission (S0 p r : ℚ) (rs : RandStream) (prop malf : List ℚ)
    (t i : ℕ) : ℚ :=
  if stateAt S0 p r rs t i = 0 then poolChoice prop (rs.propIdx i)
  else poolChoice malf (rs.malfIdx i)

/-- Row `t` of `state_history_each`. -/
def stateRow (PC : ℕ) (S0 p r : ℚ) (rs : RandStream) (t : ℕ) : List ℕ :=
  (List.range PC).map (stateAt S0 p r rs t)

/-- Row `t` of `emission_rates_each`. -/
def emissionRow (PC : ℕ) (S0 p r : ℚ) (rs : RandStream)
    (prop malf : List ℚ) (t : ℕ) : List ℚ :=
  (List.range PC).map (unitEmission S0 p r rs prop malf t)

/-- `np.bincount(states, minlength=2) / PC_count`: the fractions of
units in state 0 and in state 1. -/
def stateFractions (PC : ℕ) (row : List ℕ) : ℚ × ℚ :=
  ((row.count 0 : ℚ) / PC, (row.count 1 : ℚ) / PC)

/-- `np.cumsum`: entry `t` is the sum of the first `t + 1` entries. -/
def cumsum (l : List ℚ) : List ℚ :=
  (List.range l.length).map (fun t => (l.take (t + 1)).sum)

/-- The tuple returned by `simulate_emissions_optimized`, as a record. -/
structure SimResult where
  emission_rates_each : List (List ℚ)
  avg_emission_rate : List ℚ
  all_avg_emission_rate : ℚ
  sum_emission_rate : List ℚ
  cumulative_emission : List ℚ
  final_cumulative_emission : ℚ
  state_history : List (ℚ × ℚ)
  state_history_each : List (List ℕ)
deriving DecidableEq

/-- Builds the simulator's outputs after validation, from the clipped
probabilities `p`, `r` (source lines 19-62). -/
def mkResult (PC timesteps : ℕ) (S0 p_gas p r : ℚ)
    (prop malf : List ℚ) (rs : RandStream) : SimResult :=
  let ere := (List.range timesteps).map (emissionRow PC S0 p r rs prop malf)
  let avg := ere.map (fun row => row.sum / (PC : ℚ))
  let sums := ere.map List.sum
  let cum := (cumsum sums).map (fun x => x * (24 * p_gas))
  { emission_rates_each := ere
    avg_emission_rate := avg
    all_avg_emission_rate := avg.sum / (timesteps : ℚ)
    sum_emission_rate := sums
    cumulative_emission := cum
    final_cumulative_emission := cum.getLastD 0
    state_history :=
      (List.range timesteps).map (fun t => stateFractions PC (stateRow PC S0 p r rs t))
    state_history_each := (List.range timesteps).map (stateRow PC S0 p r rs) }

/-- `simulate_emissions_optimized(PC_count, DTF, S0, timesteps, p_gas,
S1, p, r, prop_rates, malf_rates)`: validate `S0` then `DTF`, clip `p`
and `r` into `[0,1]`, fail on an empty rate pool at the sampling step,
then run the loop and aggregate. -/
def simulate (PC_count : ℕ) (DTF S0 : ℚ) (timesteps : ℕ)
    (p_gas S1 p r : ℚ) (prop_rates malf_rates : List ℚ)
    (rs : RandStream) : Except SimError SimResult :=
  if ¬ (0 ≤ S0 ∧ S0 ≤ 1) then Except.error SimError.InvalidParameter
  else if ¬ (0 < DTF) then Except.error SimError.InvalidParameter
  else if prop_rates.isEmpty then Except.error SimError.EmptyRatePool
  else if malf_rates.isEmpty then Except.error SimError.EmptyRatePool
  else Except.ok (mkResult PC_count timesteps S0 p_gas
    (npClip p 0 1) (npClip r 0 1) prop_rates malf_rates rs)

/-- Parameters one Monte Carlo trial derives and passes to the
simulator. -/
structure TrialParams where
  DTF : ℤ
  S0 : ℚ
  S1 : ℚ
  p : ℚ
  r : ℚ
deriving DecidableEq

/-- One iteration of the driver's Monte Carlo loop (`pneumatics.py`
lines 102-107): `DTF = np.random.randint(DTF_min, DTF_max + 1)` modelled
as `DTF_min + intDraw % (DTF_max + 1 - DTF_min)`, floored by
`max(1, DTF)`; `S0 = np.random.uniform(S0_min, S0_max)` modelled as
`S0_min + uDraw * (S0_max - S0_min)` for a uniform `uDraw` in `[0,1)`;
then `S1 = 1 - S0`, `p = S0 / DTF`, `r = (p / S1) - p`. -/
def runTrial (DTF_min DTF_max : ℤ) (S0_min S0_max : ℚ)
    (intDraw : ℤ) (uDraw : ℚ) : TrialParams :=
  let DTF0 := DTF_min + intDraw % (DTF_max + 1 - DTF_min)
  let DTF := max 1 DTF0
  let S0 := S0_min + uDraw * (S0_max - S0_min)
  let S1 := 1 - S0
  let p := S0 / (DTF : ℚ)
  { DTF := DTF, S0 := S0, S1 := S1, p := p, r := p / S1 - p }

/-- An all-zero random stream, used to instantiate universally
quantified statements at a concrete input. -/
def zeroStream : RandStream :=
  { propIdx := fun _ => 0
    malfIdx := fun _ => 0
    initDraw := fun _ => 0
    stepDraw := fun _ _ => 0 }

/-! ## Helper lemmas -/

lemma npClip_mem (x : ℚ) : 0 ≤ npClip x 0 1 ∧ npClip x 0 1 ≤ 1 :=
  ⟨le_min (le_max_right x 0) zero_le_one, min_le_right _ _⟩

lemma npClip_idem (x : ℚ) : npClip (npClip x 0 1) 0 1 = npClip x 0 1 := by
  unfold npClip
  rw [max_eq_left (le_min (le_max_right x 0) zero_le_one),
    min_eq_left (min_le_right _ _)]

lemma npClip_eq_self (x : ℚ) (h0 : 0 ≤ x) (h1 : x ≤ 1) : npClip x 0 1 = x := by
  unfold npClip
  rw [max_eq_left h0, min_eq_left h1]

/-- On valid parameters the simulator returns `mkResult` applied to the
clipped probabilities. -/
lemma simulate_eq_ok (PC : ℕ) (DTF S0 : ℚ) (T : ℕ) (pg S1 p r : ℚ)
    (prop malf : List ℚ) (rs : RandStream)
    (h0 : 0 ≤ S0) (h1 : S0 ≤ 1) (hD : 0 < DTF)
    (hp : prop ≠ []) (hm : malf ≠ []) :
    simulate PC DTF S0 T pg S1 p r prop malf rs =
      Except.ok (mkResult PC T S0 pg (npClip p 0 1) (npClip r 0 1) prop malf rs) := by
  simp [simulate, h0, h1, hD, hp, hm]

/-- On `S0` outside `[0,1]` or `DTF ≤ 0` the simulator raises the
invalid-parameter error, for any random stream. -/
lemma simulate_invalid (PC : ℕ) (DTF S0 : ℚ) (T : ℕ) (pg S1 p r : ℚ)
    (prop malf : List ℚ) (rs : RandStream)
    (h : S0 < 0 ∨ 1 < S0 ∨ DTF ≤ 0) :
    simulate PC DTF S0 T pg S1 p r prop malf rs =
      Except.error SimError.InvalidParameter := by
  rcases h with h | h | h
  · have hS : ¬ (0 ≤ S0 ∧ S0 ≤ 1) := fun hc => absurd hc.1 (not_le.mpr h)
    simp [simulate, hS]
  · have hS : ¬ (0 ≤ S0 ∧ S0 ≤ 1) := fun hc => absurd hc.2 (not_le.mpr h)
    simp [simulate, hS]
  · have hD : ¬ (0 < DTF) := not_lt.mpr h
    by_cases hS : 0 ≤ S0 ∧ S0 ≤ 1 <;> simp [simulate, hS, hD]

/-- Every state the loop ever holds is 0 or 1. -/
lemma stateAt_mem (S0 p r : ℚ) (rs : RandStream) (t i : ℕ) :
    stateAt S0 p r rs t i = 0 ∨ stateAt S0 p r rs t i = 1 := by
  induction t with
  | zero => unfold stateAt initState; split_ifs <;> simp
  | succ t ih => unfold stateAt nextState; split_ifs <;> tauto

/-- Counting zeros and ones exhausts a 0/1-valued list. -/
lemma count_zero_add_count_one (l : List ℕ) (h : ∀ x ∈ l, x = 0 ∨ x = 1) :
    l.count 0 + l.count 1 = l.length := by
  induction l with
  | nil => simp
  | cons a l ih =>
    have ha := h a (List.mem_cons_self a l)
    have ih' := ih (fun x hx => h x (List.mem_cons_of_mem a hx))
    rcases ha with rfl | rfl <;> simp [List.count_cons] <;> omega

/-- Indexing row `t` of `state_history_each` at unit `i` yields
`stateAt t i`. -/
lemma stateHistEach_getD (PC T : ℕ) (S0 pg p r : ℚ) (prop malf : List ℚ)
    (rs : RandStream) (t i : ℕ) (ht : t < T) (hi : i < PC) :
    (((mkResult PC T S0 pg p r prop malf rs).state_history_each).getD t []).getD i 0 =
      stateAt S0 p r rs t i := by
  have h1 : ((List.range T).map (stateRow PC S0 p r rs)).getD t [] =
      stateRow PC S0 p r rs t := by
    rw [List.getD_eq_getElem _ _ (by simpa using ht)]
    simp
  have h2 : (stateRow PC S0 p r rs t).getD i 0 = stateAt S0 p r rs t i := by
    rw [stateRow, List.getD_eq_getElem _ _ (by simpa using hi)]
    simp
  show (((List.range T).map (stateRow PC S0 p r rs)).getD t []).getD i 0 =
    stateAt S0 p r rs t i
  rw [h1, h2]

/-- Indexing `cumsum` at a valid position yields the prefix sum. -/
lemma cumsum_getD (l : List ℚ) (t : ℕ) (ht : t < l.length) :
    (cumsum l).getD t 0 = (l.take (t + 1)).sum := by
  rw [cumsum, List.getD_eq_getElem _ _ (by simpa using ht)]
  simp

/-- A pool draw is non-negative whenever the pool is. -/
lemma poolChoice_nonneg (pool : List ℚ) (idx : ℕ)
    (h : ∀ x ∈ pool, 0 ≤ x) : 0 ≤ poolChoice pool idx := by
  unfold poolChoice
  rcases pool with _ | ⟨a, l⟩
  · simp
  · have hlt : idx % (a :: l).length < (a :: l).length :=
      Nat.mod_lt _ (by simp)
    rw [List.getD_eq_getElem _ _ hlt]
    exact h _ (List.getElem_mem hlt)

/-- Emission of any unit at any step is non-negative on non-negative
pools. -/
lemma unitEmission_nonneg (S0 p r : ℚ) (rs : RandStream)
    (prop malf : List ℚ) (t i : ℕ)
    (hp : ∀ x ∈ prop, 0 ≤ x) (hm : ∀ x ∈ malf, 0 ≤ x) :
    0 ≤ unitEmission S0 p r rs prop malf t i := by
  unfold unitEmission
  split_ifs
  · exact poolChoice_nonneg prop _ hp
  · exact poolChoice_nonneg malf _ hm

/-- Prefix sums of a non-negative list are monotone in the prefix
length. -/
lemma sum_take_mono (l : List ℚ) (h : ∀ x ∈ l, 0 ≤ x) (m n : ℕ)
    (hmn : m ≤ n) : (l.take m).sum ≤ (l.take n).sum := by
  obtain ⟨k, rfl⟩ := Nat.exists_eq_add_of_le hmn
  rw [List.take_add, List.sum_append]
  have hk : 0 ≤ ((l.drop m).take k).sum :=
    List.sum_nonneg
      (fun x hx => h x (List.mem_of_mem_drop (List.mem_of_mem_take hx)))
  linarith

/-- Indexing a scaled list. -/
lemma mapMul_getD (l : List ℚ) (c : ℚ) (t : ℕ) (ht : t < l.length) :
    (l.map (fun x => x * c)).getD t 0 = l.getD t 0 * c := by
  rw [List.getD_eq_getElem _ _ (by simpa using ht),
    List.getD_eq_getElem _ _ ht]
  simp

/-! ## Claims -/

/-- C1: with in-range `p`, `r`, the recorded per-unit state history
follows the two-state Markov rule: unit `i`'s state at step `t + 1` is
computed from its own step-`t` state and the fresh per-step, per-unit
uniform draw `rs.stepDraw t i` alone — it flips 0 → 1 iff the draw is
`< p`, flips 1 → 0 iff the draw is `< r`, and is unchanged otherwise;
no other unit's step-`t + 1` state enters the update. -/
theorem claim_C1 (PC : ℕ) (DTF S0 : ℚ) (T : ℕ) (pg S1 p r : ℚ)
    (prop malf : List ℚ) (rs : RandStream)
    (h0 : 0 ≤ S0) (h1 : S0 ≤ 1) (hD : 0 < DTF)
    (hpl : prop ≠ []) (hml : malf ≠ [])
    (hp0 : 0 ≤ p) (hp1 : p ≤ 1) (hr0 : 0 ≤ r) (hr1 : r ≤ 1) :
    ∃ res, simulate PC DTF S0 T pg S1 p r prop malf rs = Except.ok res ∧
      ∀ t i, t + 1 < T → i < PC →
        (res.state_history_each.getD (t + 1) []).getD i 0 =
          (if (res.state_history_each.getD t []).getD i 0 = 0 ∧
              rs.stepDraw t i < p then 1
           else if (res.state_history_each.getD t []).getD i 0 = 1 ∧
              rs.stepDraw t i < r then 0
           else (res.state_history_each.getD t []).getD i 0) := by
  refine ⟨_, simulate_eq_ok PC DTF S0 T pg S1 p r prop malf rs h0 h1 hD hpl hml, ?_⟩
  intro t i ht hi
  rw [npClip_eq_self p hp0 hp1, npClip_eq_self r hr0 hr1]
  rw [stateHistEach_getD PC T S0 pg p r prop malf rs (t + 1) i ht hi,
    stateHistEach_getD PC T S0 pg p r prop malf rs t i (Nat.lt_of_succ_lt ht) hi]
  rfl

/-- Witness of C1 at a concrete input. -/
theorem claim_C1_witness :
    ∃ res, simulate 2 7 (1/2) 3 1 (1/2) (1/4) (1/3) [10] [100] zeroStream =
        Except.ok res ∧
      ∀ t i, t + 1 < 3 → i < 2 →
        (res.state_history_each.getD (t + 1) []).getD i 0 =
          (if (res.state_history_each.getD t []).getD i 0 = 0 ∧
              zeroStream.stepDraw t i < 1/4 then 1
           else if (res.state_history_each.getD t []).getD i 0 = 1 ∧
              zeroStream.stepDraw t i < 1/3 then 0
           else (res.state_history_each.getD t []).getD i 0) :=
  claim_C1 2 7 (1/2) 3 1 (1/2) (1/4) (1/3) [10] [100] zeroStream
    (by norm_num) (by norm_num) (by norm_num) (by simp) (by simp)
    (by norm_num) (by norm_num) (by norm_num) (by norm_num)

/-- C2: a call with an empty `prop_rate_pool` or an empty
`malf_rate_pool` (other inputs valid) fails fast with `EmptyRatePool`
and returns no trajectory. -/
theorem claim_C2 (PC : ℕ) (DTF S0 : ℚ) (T : ℕ) (pg S1 p r : ℚ)
    (prop malf : List ℚ) (rs : RandStream)
    (h0 : 0 ≤ S0) (h1 : S0 ≤ 1) (hD : 0 < DTF)
    (h : prop = [] ∨ malf = []) :
    simulate PC DTF S0 T pg S1 p r prop malf rs =
      Except.error SimError.EmptyRatePool := by
  rcases h with h | h
  · subst h; simp [simulate, h0, h1, hD]
  · subst h
    by_cases hp : prop = [] <;> simp [simulate, h0, h1, hD, hp]

/-- Witness of C2 at a concrete input: an empty property-operating pool
fails with `EmptyRatePool`. -/
theorem claim_C2_witness :
    simulate 1 1 (1/2) 5 1 (1/2) 0 0 [] [100] zeroStream =
      Except.error SimError.EmptyRatePool :=
  claim_C2 1 1 (1/2) 5 1 (1/2) 0 0 [] [100] zeroStream
    (by norm_num) (by norm_num) (by norm_num) (Or.inl rfl)

/-- C3: the call fails with `InvalidParameter` iff `S0` is outside
`[0,1]` or `DTF ≤ 0`; on such failure the result is an error
independent of the random stream (no trajectory, no draw consumed). -/
theorem claim_C3 (PC : ℕ) (DTF S0 : ℚ) (T : ℕ) (pg S1 p r : ℚ)
    (prop malf : List ℚ) (rs : RandStream) :
    (simulate PC DTF S0 T pg S1 p r prop malf rs =
        Except.error SimError.InvalidParameter ↔
      (S0 < 0 ∨ 1 < S0 ∨ DTF ≤ 0)) ∧
    ∀ rs', (S0 < 0 ∨ 1 < S0 ∨ DTF ≤ 0) →
      simulate PC DTF S0 T pg S1 p r prop malf rs =
        simulate PC DTF S0 T pg S1 p r prop malf rs' := by
  constructor
  · constructor
    · intro h
      by_contra hc
      push_neg at hc
      obtain ⟨hS0, hS1, hDT⟩ := hc
      rw [simulate] at h
      have hS : ¬ ¬ (0 ≤ S0 ∧ S0 ≤ 1) := not_not_intro ⟨hS0, hS1⟩
      rw [if_neg hS, if_neg (not_not_intro hDT)] at h
      split_ifs at h <;> simp_all
    · exact simulate_invalid PC DTF S0 T pg S1 p r prop malf rs
  · intro rs' h
    rw [simulate_invalid PC DTF S0 T pg S1 p r prop malf rs h,
      simulate_invalid PC DTF S0 T pg S1 p r prop malf rs' h]

/-- Witness of C3 at the claim's concrete inputs: `S0 = 1.5`,
`S0 = -0.1` and `DTF = 0` each raise `InvalidParameter`. -/
theorem claim_C3_witness :
    simulate 1 1 (3/2) 5 1 (-1/2) 0 0 [10] [100] zeroStream =
        Except.error SimError.InvalidParameter ∧
    simulate 1 1 (-1/10) 5 1 (11/10) 0 0 [10] [100] zeroStream =
        Except.error SimError.InvalidParameter ∧
    simulate 1 0 (1/2) 5 1 (1/2) 0 0 [10] [100] zeroStream =
        Except.error SimError.InvalidParameter :=
  ⟨(claim_C3 1 1 (3/2) 5 1 (-1/2) 0 0 [10] [100] zeroStream).1.mpr
      (Or.inr (Or.inl (by norm_num))),
    (claim_C3 1 1 (-1/10) 5 1 (11/10) 0 0 [10] [100] zeroStream).1.mpr
      (Or.inl (by norm_num)),
    (claim_C3 1 0 (1/2) 5 1 (1/2) 0 0 [10] [100] zeroStream).1.mpr
      (Or.inr (Or.inr (by norm_num)))⟩

/-- C6: on valid inputs every returned per-step array has length
exactly `timesteps`, and the per-unit matrices (`state_history_each`,
`emission_rates_each`) have `timesteps` rows of `PC_count` columns. -/
theorem claim_C6 (PC : ℕ) (DTF S0 : ℚ) (T : ℕ) (pg S1 p r : ℚ)
    (prop malf : List ℚ) (rs : RandStream)
    (hPC : 1 ≤ PC) (hT : 1 ≤ T)
    (h0 : 0 ≤ S0) (h1 : S0 ≤ 1) (hD : 0 < DTF)
    (hpl : prop ≠ []) (hml : malf ≠ []) :
    ∃ res, simulate PC DTF S0 T pg S1 p r prop malf rs = Except.ok res ∧
      res.emission_rates_each.length = T ∧
      (∀ row ∈ res.emission_rates_each, row.length = PC) ∧
      res.state_history_each.length = T ∧
      (∀ row ∈ res.state_history_each, row.length = PC) ∧
      res.avg_emission_rate.length = T ∧
      res.sum_emission_rate.length = T ∧
      res.cumulative_emission.length = T ∧
      res.state_history.length = T := by
  refine ⟨_, simulate_eq_ok PC DTF S0 T pg S1 p r prop malf rs h0 h1 hD hpl hml,
    ?_, ?_, ?_, ?_, ?_, ?_, ?_, ?_⟩
  · simp [mkResult]
  · intro row hrow
    simp only [mkResult, List.mem_map] at hrow
    obtain ⟨t, -, rfl⟩ := hrow
    simp [emissionRow]
  · simp [mkResult]
  · intro row hrow
    simp only [mkResult, List.mem_map] at hrow
    obtain ⟨t, -, rfl⟩ := hrow
    simp [stateRow]
  · simp [mkResult]
  · simp [mkResult]
  · simp [mkResult, cumsum]
  · simp [mkResult]

/-- Witness of C6 at a concrete input. -/
theorem claim_C6_witness :
    ∃ res, simulate 2 7 (1/2) 3 1 (1/2) (1/4) (1/3) [10] [100] zeroStream =
        Except.ok res ∧
      res.emission_rates_each.length = 3 ∧
      (∀ row ∈ res.emission_rates_each, row.length = 2) ∧
      res.state_history_each.length = 3 ∧
      (∀ row ∈ res.state_history_each, row.length = 2) ∧
      res.avg_emission_rate.length = 3 ∧
      res.sum_emission_rate.length = 3 ∧
      res.cumulative_emission.length = 3 ∧
      res.state_history.length = 3 :=
  claim_C6 2 7 (1/2) 3 1 (1/2) (1/4) (1/3) [10] [100] zeroStream
    (by norm_num) (by norm_num) (by norm_num) (by norm_num) (by norm_num)
    (by simp) (by simp)

/-- C7: at every recorded timestep the two population fractions
partition the population: `state_history[t][0] + state_history[t][1]`
equals 1 exactly. -/
theorem claim_C7 (PC : ℕ) (DTF S0 : ℚ) (T : ℕ) (pg S1 p r : ℚ)
    (prop malf : List ℚ) (rs : RandStream)
    (hPC : 1 ≤ PC)
    (h0 : 0 ≤ S0) (h1 : S0 ≤ 1) (hD : 0 < DTF)
    (hpl : prop ≠ []) (hml : malf ≠ []) :
    ∃ res, simulate PC DTF S0 T pg S1 p r prop malf rs = Except.ok res ∧
      ∀ t < T, (res.state_history.getD t (0, 0)).1 +
        (res.state_history.getD t (0, 0)).2 = 1 := by
  refine ⟨_, simulate_eq_ok PC DTF S0 T pg S1 p r prop malf rs h0 h1 hD hpl hml, ?_⟩
  intro t ht
  have h1' : (mkResult PC T S0 pg (npClip p 0 1) (npClip r 0 1) prop malf rs).state_history.getD
      t (0, 0) =
      stateFractions PC (stateRow PC S0 (npClip p 0 1) (npClip r 0 1) rs t) := by
    show ((List.range T).map
        (fun u => stateFractions PC (stateRow PC S0 (npClip p 0 1) (npClip r 0 1) rs u))).getD
        t (0, 0) = _
    rw [List.getD_eq_getElem _ _ (by simpa using ht)]
    simp
  rw [h1']
  set row := stateRow PC S0 (npClip p 0 1) (npClip r 0 1) rs t with hrow
  have hmem : ∀ x ∈ row, x = 0 ∨ x = 1 := by
    intro x hx
    rw [hrow, stateRow] at hx
    simp only [List.mem_map] at hx
    obtain ⟨i, -, rfl⟩ := hx
    exact stateAt_mem S0 (npClip p 0 1) (npClip r 0 1) rs t i
  have hcount := count_zero_add_count_one row hmem
  have hlen : row.length = PC := by rw [hrow, stateRow]; simp
  have hPCne : (PC : ℚ) ≠ 0 := Nat.cast_ne_zero.mpr (by omega)
  show (row.count 0 : ℚ) / PC + (row.count 1 : ℚ) / PC = 1
  rw [div_add_div_same]
  rw [show ((row.count 0 : ℚ) + (row.count 1 : ℚ)) = ((row.count 0 + row.count 1 : ℕ) : ℚ) by
    push_cast; ring]
  rw [hcount, hlen]
  exact div_self hPCne

/-- Witness of C7 at a concrete input. -/
theorem claim_C7_witness :
    ∃ res, simulate 2 7 (1/2) 3 1 (1/2) (1/4) (1/3) [10] [100] zeroStream =
        Except.ok res ∧
      ∀ t < 3, (res.state_history.getD t (0, 0)).1 +
        (res.state_history.getD t (0, 0)).2 = 1 :=
  claim_C7 2 7 (1/2) 3 1 (1/2) (1/4) (1/3) [10] [100] zeroStream
    (by norm_num) (by norm_num) (by norm_num) (by norm_num)
    (by simp) (by simp)

/-- C4: for every `p`, `r` and every fixed random stream, the call
returns exactly the same outputs as the call with `p`, `r` clipped into
`[0,1]`; in particular `p = 1.5` behaves identically to `p = 1.0`, and
out-of-range `p` or `r` never changes whether the call succeeds. -/
theorem claim_C4 (PC : ℕ) (DTF S0 : ℚ) (T : ℕ) (pg S1 p r : ℚ)
    (prop malf : List ℚ) (rs : RandStream) :
    simulate PC DTF S0 T pg S1 p r prop malf rs =
      simulate PC DTF S0 T pg S1 (npClip p 0 1) (npClip r 0 1) prop malf rs ∧
    simulate PC DTF S0 T pg S1 (3/2) r prop malf rs =
      simulate PC DTF S0 T pg S1 1 r prop malf rs ∧
    ∀ p' r', (simulate PC DTF S0 T pg S1 p r prop malf rs).isOk =
      (simulate PC DTF S0 T pg S1 p' r' prop malf rs).isOk := by
  refine ⟨?_, ?_, ?_⟩
  · simp only [simulate, npClip_idem]
  · have h32 : npClip (3/2) 0 1 = 1 := by
      unfold npClip
      rw [max_eq_left (by norm_num), min_eq_right (by norm_num)]
    have h1 : npClip 1 0 1 = npClip (3/2) 0 1 := by
      rw [h32]; exact npClip_eq_self 1 zero_le_one le_rfl
    simp only [simulate, h1]
  · intro p' r'
    rw [simulate, simulate]
    split_ifs <;> rfl

/-- C10: at every step the returned summed emission rate is `PC_count`
times the returned average emission rate, and the scalar
average-emission summary is the arithmetic mean of the per-step average
series. -/
theorem claim_C10 (PC : ℕ) (DTF S0 : ℚ) (T : ℕ) (pg S1 p r : ℚ)
    (prop malf : List ℚ) (rs : RandStream)
    (hPC : 1 ≤ PC) (hT : 1 ≤ T)
    (h0 : 0 ≤ S0) (h1 : S0 ≤ 1) (hD : 0 < DTF)
    (hpl : prop ≠ []) (hml : malf ≠ []) :
    ∃ res, simulate PC DTF S0 T pg S1 p r prop malf rs = Except.ok res ∧
      (∀ t < T, res.sum_emission_rate.getD t 0 =
        (PC : ℚ) * res.avg_emission_rate.getD t 0) ∧
      res.all_avg_emission_rate =
        res.avg_emission_rate.sum / (res.avg_emission_rate.length : ℚ) := by
  have hPCne : (PC : ℚ) ≠ 0 := Nat.cast_ne_zero.mpr (by omega)
  refine ⟨_, simulate_eq_ok PC DTF S0 T pg S1 p r prop malf rs h0 h1 hD hpl hml,
    ?_, ?_⟩
  · intro t ht
    have hs : (mkResult PC T S0 pg (npClip p 0 1) (npClip r 0 1) prop malf rs).sum_emission_rate.getD
        t 0 = (emissionRow PC S0 (npClip p 0 1) (npClip r 0 1) rs prop malf t).sum := by
      show (((List.range T).map
          (emissionRow PC S0 (npClip p 0 1) (npClip r 0 1) rs prop malf)).map List.sum).getD
          t 0 = _
      rw [List.getD_eq_getElem _ _ (by simpa using ht)]
      simp
    have ha : (mkResult PC T S0 pg (npClip p 0 1) (npClip r 0 1) prop malf rs).avg_emission_rate.getD
        t 0 =
        (emissionRow PC S0 (npClip p 0 1) (npClip r 0 1) rs prop malf t).sum / (PC : ℚ) := by
      show (((List.range T).map
          (emissionRow PC S0 (npClip p 0 1) (npClip r 0 1) rs prop malf)).map
            (fun row => row.sum / (PC : ℚ))).getD t 0 = _
      rw [List.getD_eq_getElem _ _ (by simpa using ht)]
      simp
    rw [hs, ha, mul_comm, div_mul_cancel₀ _ hPCne]
  · have hlen : (mkResult PC T S0 pg (npClip p 0 1) (npClip r 0 1) prop malf rs).avg_emission_rate.length
        = T := by
      simp [mkResult]
    rw [hlen]
    rfl

/-- Witness of C10 at a concrete input. -/
theorem claim_C10_witness :
    ∃ res, simulate 2 7 (1/2) 3 1 (1/2) (1/4) (1/3) [10] [100] zeroStream =
        Except.ok res ∧
      (∀ t < 3, res.sum_emission_rate.getD t 0 =
        ((2 : ℕ) : ℚ) * res.avg_emission_rate.getD t 0) ∧
      res.all_avg_emission_rate =
        res.avg_emission_rate.sum / (res.avg_emission_rate.length : ℚ) :=
  claim_C10 2 7 (1/2) 3 1 (1/2) (1/4) (1/3) [10] [100] zeroStream
    (by norm_num) (by norm_num) (by norm_num) (by norm_num) (by norm_num)
    (by simp) (by simp)

/-- C8: on non-negative rate pools (and positive gas density factor)
every entry of the per-unit emission-rate matrix is non-negative — in
this rational model no value is NaN — and the cumulative-emission
series is non-decreasing. -/
theorem claim_C8 (PC : ℕ) (DTF S0 : ℚ) (T : ℕ) (pg S1 p r : ℚ)
    (prop malf : List ℚ) (rs : RandStream)
    (h0 : 0 ≤ S0) (h1 : S0 ≤ 1) (hD : 0 < DTF)
    (hpl : prop ≠ []) (hml : malf ≠ [])
    (hpn : ∀ x ∈ prop, 0 ≤ x) (hmn : ∀ x ∈ malf, 0 ≤ x)
    (hpg : 0 < pg) :
    ∃ res, simulate PC DTF S0 T pg S1 p r prop malf rs = Except.ok res ∧
      (∀ row ∈ res.emission_rates_each, ∀ x ∈ row, 0 ≤ x) ∧
      ∀ t, t + 1 < T →
        res.cumulative_emission.getD t 0 ≤
          res.cumulative_emission.getD (t + 1) 0 := by
  refine ⟨_, simulate_eq_ok PC DTF S0 T pg S1 p r prop malf rs h0 h1 hD hpl hml,
    ?_, ?_⟩
  · intro row hrow x hx
    simp only [mkResult, List.mem_map] at hrow
    obtain ⟨t, -, rfl⟩ := hrow
    rw [emissionRow] at hx
    simp only [List.mem_map] at hx
    obtain ⟨i, -, rfl⟩ := hx
    exact unitEmission_nonneg S0 (npClip p 0 1) (npClip r 0 1) rs prop malf t i hpn hmn
  · intro t ht
    set sums := ((List.range T).map
      (emissionRow PC S0 (npClip p 0 1) (npClip r 0 1) rs prop malf)).map List.sum with hsums
    have hslen : sums.length = T := by rw [hsums]; simp
    have hcumlen : (cumsum sums).length = T := by rw [cumsum, hslen]; simp
    have hget : ∀ u, u < T →
        (mkResult PC T S0 pg (npClip p 0 1) (npClip r 0 1) prop malf rs).cumulative_emission.getD
          u 0 = (sums.take (u + 1)).sum * (24 * pg) := by
      intro u hu
      show ((cumsum sums).map (fun x => x * (24 * pg))).getD u 0 = _
      rw [mapMul_getD _ _ u (by rw [hcumlen]; exact hu),
        cumsum_getD sums u (by rw [hslen]; exact hu)]
    rw [hget t (by omega), hget (t + 1) ht]
    have hnn : ∀ x ∈ sums, 0 ≤ x := by
      intro x hx
      rw [hsums] at hx
      simp only [List.map_map, List.mem_map] at hx
      obtain ⟨u, -, rfl⟩ := hx
      show 0 ≤ (emissionRow PC S0 (npClip p 0 1) (npClip r 0 1) rs prop malf u).sum
      exact List.sum_nonneg (by
        intro y hy
        rw [emissionRow] at hy
        simp only [List.mem_map] at hy
        obtain ⟨i, -, rfl⟩ := hy
        exact unitEmission_nonneg S0 (npClip p 0 1) (npClip r 0 1) rs prop malf u i hpn hmn)
    exact mul_le_mul_of_nonneg_right
      (sum_take_mono sums hnn (t + 1) (t + 2) (by omega)) (by linarith)

/-- Witness of C8 at a concrete input. -/
theorem claim_C8_witness :
    ∃ res, simulate 2 7 (1/2) 3 1 (1/2) (1/4) (1/3) [10] [100] zeroStream =
        Except.ok res ∧
      (∀ row ∈ res.emission_rates_each, ∀ x ∈ row, 0 ≤ x) ∧
      ∀ t, t + 1 < 3 →
        res.cumulative_emission.getD t 0 ≤
          res.cumulative_emission.getD (t + 1) 0 :=
  claim_C8 2 7 (1/2) 3 1 (1/2) (1/4) (1/3) [10] [100] zeroStream
    (by norm_num) (by norm_num) (by norm_num) (by simp) (by simp)
    (by intro x hx; simp at hx; simp [hx]) (by intro x hx; simp at hx; simp [hx])
    (by norm_num)

/-- With `S0 = 1` and `p = 0`, every unit starts and stays properly
operating (state 0), for uniform draws in `[0, 1)`. -/
lemma stateAt_S0_one (rc : ℚ) (rs : RandStream)
    (hu : ∀ i, rs.initDraw i < 1) (hs : ∀ t i, 0 ≤ rs.stepDraw t i)
    (t i : ℕ) : stateAt 1 0 rc rs t i = 0 := by
  induction t with
  | zero =>
    unfold stateAt initState
    rw [if_pos (hu i)]
  | succ t ih =>
    unfold stateAt nextState
    rw [ih]
    have hc1 : ¬ ((0 : ℕ) = 0 ∧ rs.stepDraw t i < 0) :=
      fun hc => absurd hc.2 (not_lt.mpr (hs t i))
    have hc2 : ¬ ((0 : ℕ) = 1 ∧ rs.stepDraw t i < rc) :=
      fun hc => absurd hc.1 (by norm_num)
    rw [if_neg hc1, if_neg hc2]

/-- C5: with one unit, 5 steps, pools `[10]` and `[100]`, `S0 = 1` and
`p = 0`, every step records emission rate exactly 10 and the final
cumulative emission is `5 * 10 * 24 * gas_density_factor`; in general
the cumulative-emission series is the running cumulative sum of the
per-step summed rates scaled by `24 * gas_density_factor`, and its last
entry is returned as the scalar final cumulative emission. -/
theorem claim_C5 (DTF pg S1 r : ℚ) (rs : RandStream)
    (hD : 0 < DTF)
    (hu : ∀ i, rs.initDraw i < 1) (hs : ∀ t i, 0 ≤ rs.stepDraw t i) :
    (∃ res, simulate 1 DTF 1 5 pg S1 0 r [10] [100] rs = Except.ok res ∧
      res.emission_rates_each = [[10], [10], [10], [10], [10]] ∧
      res.sum_emission_rate = [10, 10, 10, 10, 10] ∧
      res.final_cumulative_emission = 5 * 10 * (24 * pg)) ∧
    ∀ (PC : ℕ) (DTF' S0' : ℚ) (T : ℕ) (pg' S1' p' r' : ℚ)
      (prop malf : List ℚ) (rs' : RandStream) res',
      simulate PC DTF' S0' T pg' S1' p' r' prop malf rs' = Except.ok res' →
        res'.cumulative_emission =
          (cumsum res'.sum_emission_rate).map (fun x => x * (24 * pg')) ∧
        res'.final_cumulative_emission =
          res'.cumulative_emission.getLastD 0 := by
  constructor
  · have hclip0 : npClip 0 0 1 = 0 := npClip_eq_self 0 le_rfl zero_le_one
    have hrow : ∀ t,
        emissionRow 1 1 (npClip 0 0 1) (npClip r 0 1) rs [10] [100] t = [10] := by
      intro t
      rw [emissionRow, show List.range 1 = [0] from rfl]
      simp only [List.map_cons, List.map_nil]
      rw [unitEmission, hclip0, stateAt_S0_one (npClip r 0 1) rs hu hs t 0,
        if_pos rfl]
      simp [poolChoice, Nat.mod_one]
    have here :
        ((List.range 5).map
          (emissionRow 1 1 (npClip 0 0 1) (npClip r 0 1) rs [10] [100])) =
          [[10], [10], [10], [10], [10]] := by
      rw [show List.range 5 = [0, 1, 2, 3, 4] from rfl]
      simp [hrow]
    have hsums :
        (((List.range 5).map
          (emissionRow 1 1 (npClip 0 0 1) (npClip r 0 1) rs [10] [100])).map
            List.sum) = [10, 10, 10, 10, 10] := by
      rw [here]
      norm_num
    refine ⟨_, simulate_eq_ok 1 DTF 1 5 pg S1 0 r [10] [100] rs
      zero_le_one le_rfl hD (by simp) (by simp), ?_, ?_, ?_⟩
    · exact here
    · exact hsums
    · show ((cumsum (((List.range 5).map
        (emissionRow 1 1 (npClip 0 0 1) (npClip r 0 1) rs [10] [100])).map
          List.sum)).map (fun x => x * (24 * pg))).getLastD 0 = 5 * 10 * (24 * pg)
      rw [hsums]
      rw [show cumsum [10, 10, 10, 10, 10] = [10, 20, 30, 40, 50] by
        norm_num [cumsum, List.range_succ]]
      show (50 : ℚ) * (24 * pg) = 5 * 10 * (24 * pg)
      ring
  · intro PC DTF' S0' T pg' S1' p' r' prop malf rs' res' h
    rw [simulate] at h
    split_ifs at h
    obtain rfl : mkResult PC T S0' pg' (npClip p' 0 1) (npClip r' 0 1) prop malf rs' = res' := by
      injection h
    exact ⟨rfl, rfl⟩

/-- Witness of C5 at a concrete input. -/
theorem claim_C5_witness :
    (∃ res, simulate 1 7 1 5 1 0 0 (1/3) [10] [100] zeroStream = Except.ok res ∧
      res.emission_rates_each = [[10], [10], [10], [10], [10]] ∧
      res.sum_emission_rate = [10, 10, 10, 10, 10] ∧
      res.final_cumulative_emission = 5 * 10 * (24 * 1)) ∧
    ∀ (PC : ℕ) (DTF' S0' : ℚ) (T : ℕ) (pg' S1' p' r' : ℚ)
      (prop malf : List ℚ) (rs' : RandStream) res',
      simulate PC DTF' S0' T pg' S1' p' r' prop malf rs' = Except.ok res' →
        res'.cumulative_emission =
          (cumsum res'.sum_emission_rate).map (fun x => x * (24 * pg')) ∧
        res'.final_cumulative_emission =
          res'.cumulative_emission.getLastD 0 :=
  claim_C5 7 1 0 (1/3) zeroStream (by norm_num)
    (by intro i; show (0 : ℚ) < 1; norm_num)
    (by intro t i; exact le_rfl)

/-- C9: each Monte Carlo trial samples an integer `DTF` in
`[DTF_min, DTF_max]` floored to a minimum of 1, samples `S0` uniformly
in `[S0_min, S0_max]`, and derives exactly `S1 = 1 - S0`,
`p = S0 / DTF` and `r = (p / S1) - p`. -/
theorem claim_C9 (DTF_min DTF_max : ℤ) (S0_min S0_max : ℚ)
    (intDraw : ℤ) (uDraw : ℚ)
    (hD : DTF_min ≤ DTF_max) (hu0 : 0 ≤ uDraw) (hu1 : uDraw < 1)
    (hS : S0_min ≤ S0_max) :
    ∃ d : ℤ, DTF_min ≤ d ∧ d ≤ DTF_max ∧
      (runTrial DTF_min DTF_max S0_min S0_max intDraw uDraw).DTF = max 1 d ∧
      S0_min ≤ (runTrial DTF_min DTF_max S0_min S0_max intDraw uDraw).S0 ∧
      (runTrial DTF_min DTF_max S0_min S0_max intDraw uDraw).S0 ≤ S0_max ∧
      (runTrial DTF_min DTF_max S0_min S0_max intDraw uDraw).S1 =
        1 - (runTrial DTF_min DTF_max S0_min S0_max intDraw uDraw).S0 ∧
      (runTrial DTF_min DTF_max S0_min S0_max intDraw uDraw).p =
        (runTrial DTF_min DTF_max S0_min S0_max intDraw uDraw).S0 /
          ((runTrial DTF_min DTF_max S0_min S0_max intDraw uDraw).DTF : ℚ) ∧
      (runTrial DTF_min DTF_max S0_min S0_max intDraw uDraw).r =
        (runTrial DTF_min DTF_max S0_min S0_max intDraw uDraw).p /
          (runTrial DTF_min DTF_max S0_min S0_max intDraw uDraw).S1 -
          (runTrial DTF_min DTF_max S0_min S0_max intDraw uDraw).p := by
  have hspan : (0 : ℤ) < DTF_max + 1 - DTF_min := by omega
  have hm0 := Int.emod_nonneg intDraw (by omega : DTF_max + 1 - DTF_min ≠ 0)
  have hmlt := Int.emod_lt_of_pos intDraw hspan
  refine ⟨DTF_min + intDraw % (DTF_max + 1 - DTF_min),
    by omega, by omega, rfl, ?_, ?_, rfl, rfl, rfl⟩
  · show S0_min ≤ S0_min + uDraw * (S0_max - S0_min)
    nlinarith [mul_nonneg hu0 (sub_nonneg.mpr hS)]
  · show S0_min + uDraw * (S0_max - S0_min) ≤ S0_max
    nlinarith [mul_le_of_le_one_left (sub_nonneg.mpr hS) hu1.le]

/-- Witness of C9 at the defaults of the driver's sidebar:
`DTF` bounds 7 and 180, `S0` bounds 0.72 and 0.92. -/
theorem claim_C9_witness :
    ∃ d : ℤ, 7 ≤ d ∧ d ≤ 180 ∧
      (runTrial 7 180 (18/25) (23/25) 10 (1/2)).DTF = max 1 d ∧
      (18/25 : ℚ) ≤ (runTrial 7 180 (18/25) (23/25) 10 (1/2)).S0 ∧
      (runTrial 7 180 (18/25) (23/25) 10 (1/2)).S0 ≤ 23/25 ∧
      (runTrial 7 180 (18/25) (23/25) 10 (1/2)).S1 =
        1 - (runTrial 7 180 (18/25) (23/25) 10 (1/2)).S0 ∧
      (runTrial 7 180 (18/25) (23/25) 10 (1/2)).p =
        (runTrial 7 180 (18/25) (23/25) 10 (1/2)).S0 /
          ((runTrial 7 180 (18/25) (23/25) 10 (1/2)).DTF : ℚ) ∧
      (runTrial 7 180 (18/25) (23/25) 10 (1/2)).r =
        (runTrial 7 180 (18/25) (23/25) 10 (1/2)).p /
          (runTrial 7 180 (18/25) (23/25) 10 (1/2)).S1 -
          (runTrial 7 180 (18/25) (23/25) 10 (1/2)).p :=
  claim_C9 7 180 (18/25) (23/25) 10 (1/2)
    (by norm_num) (by norm_num) (by norm_num) (by norm_num)

end PCSim
